import Mathlib

/-!
Verification of the orcanote-table-layout plugin (src/src/main.tsx and
src/src/libs/l10n.ts) against its natural-language specification.

The TypeScript sources are shallowly embedded: JavaScript dynamic values
become the inductive `JVal`, JavaScript objects become association lists
in insertion order, the module-level l10n globals become an explicit
`L10NState`, and the host (`orca`) state read by the plugin becomes an
explicit `OrcaState`.  Host command invocations performed by the plugin
are recorded as an explicit trace (`HostCmd` / `LoadEvent`), since the
plugin only requests mutations through the host and never writes state
directly.
-/

namespace TableLayout

/-- JavaScript-like dynamic values, as stored in block properties and
attribute maps.  Objects are association lists in key insertion order,
matching the enumeration order of non-integer string keys in JS. -/
inductive JVal where
  | jnull
  | jbool (b : Bool)
  | jnum (n : Int)
  | jstr (s : String)
  | jobj (fields : List (String × JVal))

/-- JavaScript truthiness of a value (`null`/`undefined`, `false`, `0`
and the empty string are falsy; every object is truthy). -/
def JVal.truthy : JVal → Bool
  | .jnull => false
  | .jbool b => b
  | .jnum n => n != 0
  | .jstr s => s != ""
  | .jobj _ => true

/-- Whether a value is an object. -/
def JVal.isObj : JVal → Bool
  | .jobj _ => true
  | _ => false

/-- JS property read `m[k]` on the field list of an object: the value of the
first entry with that key. -/
def objLookup : List (String × JVal) → String → Option JVal
  | [], _ => none
  | p :: rest, k => if p.1 == k then some p.2 else objLookup rest k

/-- JS `k in m` / `Object.hasOwn`. -/
def objHas (m : List (String × JVal)) (k : String) : Bool :=
  m.any (fun p => p.1 == k)

/-- JS object update `\x7b ...m, k: v \x7d`: if `k` is already present its
value is updated in place (keeping its position), otherwise the new key
is appended at the end. -/
def objSet (m : List (String × JVal)) (k : String) (v : JVal) : List (String × JVal) :=
  if objHas m k then m.map (fun p => if p.1 == k then (k, v) else p)
  else m ++ [(k, v)]

/-- JS `delete m[k]`: removes the key, keeping every other entry in
order. -/
def objDelete (m : List (String × JVal)) (k : String) : List (String × JVal) :=
  m.filter (fun p => p.1 != k)

/-- JS `Object.keys`. -/
def objKeys (m : List (String × JVal)) : List String :=
  m.map (fun p => p.1)

/-- JS object spread `\x7b ...v \x7d` of an arbitrary value: objects
contribute their own enumerable fields, strings contribute their
characters under integer keys, and all other primitives contribute
nothing. -/
def spreadFields : JVal → List (String × JVal)
  | .jobj m => m
  | .jstr s => (s.toList.enum.map (fun p => (toString p.1, JVal.jstr (String.mk [p.2]))))
  | _ => []

/-- The backquote character (code 96), written by code to stay out of
identifier syntax. -/
def backquoteChar : Char := Char.ofNat 96

/-- The single-quote character (code 39), written by code to stay out of
identifier syntax. -/
def singleQuoteChar : Char := Char.ofNat 39

/-- ECMAScript GetSubstitution for a *string* search value (as used by
`String.prototype.replaceAll` with a string pattern): in the replacement
string, a dollar sign followed by a dollar sign inserts one dollar sign,
dollar-ampersand inserts the matched substring, dollar-backquote the
part of the subject before the match, dollar-single-quote the part
after it.  With a string pattern there are no capture groups and no
named captures, so every other dollar sequence (digits, angle brackets,
a trailing dollar, ...) is copied literally. -/
def getSubstitution (matched str : List Char) (position : Nat) :
    List Char → List Char
  | [] => []
  | [c] => [c]
  | c :: d :: rest2 =>
    if c = '$' then
      if d = '$' then
        '$' :: getSubstitution matched str position rest2
      else if d = '&' then
        matched ++ getSubstitution matched str position rest2
      else if d = backquoteChar then
        List.take position str ++ getSubstitution matched str position rest2
      else if d = singleQuoteChar then
        List.drop (position + matched.length) str ++
          getSubstitution matched str position rest2
      else
        c :: getSubstitution matched str position (d :: rest2)
    else
      c :: getSubstitution matched str position (d :: rest2)

/-- Recursion core of JS `String.prototype.replaceAll` with a non-empty
string pattern `p :: ps`: scan left to right, replace each
non-overlapping occurrence with the GetSubstitution of the replacement
at the absolute match position, and never rescan substituted text.
`orig` is the whole subject (GetSubstitution reads the text before and
after the match from it) and `pos` the absolute position of the scan.
The `fuel` argument (instantiated with the length of the subject, an
upper bound on the number of steps) only makes the recursion
structural. -/
def replaceAllAux (p : Char) (ps : List Char) (rep : List Char) (orig : List Char) :
    Nat → Nat → List Char → List Char
  | 0, _, s => s
  | _ + 1, _, [] => []
  | fuel + 1, pos, c :: rest =>
    if List.isPrefixOf (p :: ps) (c :: rest) then
      getSubstitution (p :: ps) orig pos rep ++
        replaceAllAux p ps rep orig fuel (pos + ps.length + 1) (List.drop ps.length rest)
    else
      c :: replaceAllAux p ps rep orig fuel (pos + 1) rest

/-- The empty-pattern case of `replaceAll`: the empty string matches at
every position including both ends, with an empty matched substring. -/
def replaceAllEmptyAux (orig rep : List Char) : Nat → List Char → List Char
  | i, [] => getSubstitution [] orig i rep
  | i, c :: rest =>
    getSubstitution [] orig i rep ++ c :: replaceAllEmptyAux orig rep (i + 1) rest

/-- JS `s.replaceAll(pat, rep)` with string pattern and string
replacement: literal (non-regex) matching of every occurrence, left to
right, non-overlapping, without re-scanning the substituted text; the
replacement string goes through GetSubstitution at each match. -/
def jsReplaceAll (s pat rep : String) : String :=
  match pat.toList with
  | [] => String.mk (replaceAllEmptyAux s.toList rep.toList 0 s.toList)
  | p :: ps => String.mk (replaceAllAux p ps rep.toList s.toList s.toList.length 0 s.toList)

/-! ## src/src/libs/l10n.ts -/

/-- `type Translations = \x7b [locale: string]: \x7b [key: string]: string \x7d \x7d`,
as an association list of locales, each mapping keys to templates. -/
def Translations := List (String × List (String × String))

/-- The module-level globals `_locale` and `_translations` of l10n.ts,
made explicit. -/
structure L10NState where
  locale : String
  translations : List (String × List (String × String))
  deriving Repr, DecidableEq

/-- `setupL10N(locale, builtinTranslations)`: overwrite both globals. -/
def setupL10N (locale : String)
    (builtinTranslations : List (String × List (String × String))) : L10NState :=
  ⟨locale, builtinTranslations⟩

/-- The template resolution inside `t`:
`_translations[locale ?? _locale]?.[key]` (without the `?? key`
fallback). -/
def lookupEntry (st : L10NState) (locale : String) (key : String) : Option String :=
  (st.translations.lookup locale).bind (fun tbl => tbl.lookup key)

/-- The substitution pass of `t`:
`Object.entries(args).reduce((str, [name, val]) => str.replaceAll(\x24\x7b...\x7d, val), template)`,
entries taken in mapping order. -/
def substArgs (args : List (String × String)) (template : String) : String :=
  args.foldl (fun str nv => jsReplaceAll str ("$\x7b" ++ nv.1 ++ "\x7d") nv.2) template

/-- `t(key, args?, locale?)` of l10n.ts: resolve the template for the
requested (or global) locale, falling back to the key itself, then apply
placeholder substitution when `args` is given.  Total: never throws and
never returns null. -/
def t (st : L10NState) (key : String) (args : Option (List (String × String)))
    (locale : Option String) : String :=
  let template := (lookupEntry st (locale.getD st.locale) key).getD key
  match args with
  | none => template
  | some a => substArgs a template

/-! ## src/src/main.tsx: host state read by the plugin -/

/-- A block property `\x7b name, type, value \x7d` as used by main.tsx
(field order follows the object literals in the source; a property
without a value carries `jnull`). -/
structure BlockProperty where
  name : String
  value : JVal
  type : Int

/-- The slice of a host `Block` the plugin reads: its `properties`
array. -/
structure Block where
  properties : List BlockProperty

/-- The `doFn` passed to `registerEditorCommand`: one of the three
toggler functions of main.tsx. -/
inductive DoFn where
  | setMultiCol
  | setSeries
  | clearLayout
  deriving DecidableEq, Repr

/-- A registered editor command: its `doFn` and its `label` option (the
`undoFn` is always the no-op `() => \x7b\x7d`). -/
structure EditorCommand where
  doFn : DoFn
  label : String
  deriving DecidableEq, Repr

/-- A registered block-menu contribution (its `render` closure is
modelled separately by `render` below). -/
structure BlockMenuCommand where
  worksOnMultipleBlocks : Bool
  deriving DecidableEq, Repr

/-- The slice of `orca.state` the plugin reads, with the two command
registries it registers into.  `blocks`, `commands` and
`blockMenuCommands` are JS records, modelled as functions returning
`none` for absent keys (JS `undefined`). -/
structure OrcaState where
  locale : String
  blocks : Nat → Option Block
  commands : String → Option EditorCommand
  blockMenuCommands : String → Option BlockMenuCommand

/-- An `orca.commands.invokeEditorCommand` call issued by a toggler:
the command name, the `[blockId]` argument, and the final payload
(property list for `core.editor.setProperties`, property-name list for
`core.editor.deleteProperties`).  The second source argument (cursor)
is always `null` and is omitted. -/
inductive HostCmd where
  | invoke (command : String) (blockIds : List Nat) (props : List BlockProperty)
  | invokeNames (command : String) (blockIds : List Nat) (propNames : List String)

/-! ## src/src/main.tsx: the three togglers -/

/-- `getBlockAttr(blockId)`:
`orca.state.blocks[blockId]` then `block?.properties.find(p => p.name === "_attr")`
then `attrProp?.value || \x7b\x7d`. -/
def getBlockAttr (st : OrcaState) (blockId : Nat) : JVal :=
  let block := st.blocks blockId
  let attrProp := block.bind (fun b => b.properties.find? (fun p => p.name == "_attr"))
  match attrProp.map (fun p => p.value) with
  | some v => if v.truthy then v else .jobj []
  | none => .jobj []

/-- `setMultiCol(_editor, blockId)`: spread the current attribute map,
set `multi-col` to 1, and issue one `core.editor.setProperties` call;
returns `null`.  The result is the trace of host invocations paired
with the return value. -/
def setMultiCol (st : OrcaState) (blockId : Nat) : List HostCmd × JVal :=
  let attr := objSet (spreadFields (getBlockAttr st blockId)) "multi-col" (.jnum 1)
  ([.invoke "core.editor.setProperties" [blockId] [⟨"_attr", .jobj attr, 0⟩]], .jnull)

/-- `setSeries(_editor, blockId)`: symmetric to `setMultiCol`, setting
`serie` to 1. -/
def setSeries (st : OrcaState) (blockId : Nat) : List HostCmd × JVal :=
  let attr := objSet (spreadFields (getBlockAttr st blockId)) "serie" (.jnum 1)
  ([.invoke "core.editor.setProperties" [blockId] [⟨"_attr", .jobj attr, 0⟩]], .jnull)

/-- `clearLayout(_editor, blockId)`: spread the current attribute map,
delete `multi-col` and `serie`, then either delete the `_attr` property
(empty result) or persist the reduced map; returns `null`. -/
def clearLayout (st : OrcaState) (blockId : Nat) : List HostCmd × JVal :=
  let attr := spreadFields (getBlockAttr st blockId)
  let attr := objDelete attr "multi-col"
  let attr := objDelete attr "serie"
  if (objKeys attr).length = 0 then
    ([.invokeNames "core.editor.deleteProperties" [blockId] ["_attr"]], .jnull)
  else
    ([.invoke "core.editor.setProperties" [blockId] [⟨"_attr", .jobj attr, 0⟩]], .jnull)

/-! ## src/src/main.tsx: the block-menu render closure -/

/-- One `MenuText` item of the submenu: its title, the editor command
its `onClick` invokes (with the `null` cursor and `blockId` arguments),
and whether it calls `close()` afterwards. -/
structure MenuItem where
  title : String
  invokesCommand : String
  onBlock : Nat
  closesMenu : Bool

/-- The rendered outer `MenuText` with its submenu items. -/
structure MenuNode where
  preIcon : String
  title : String
  items : List MenuItem

/-- JS property read `v.k` for the purposes of `repr?.type`: only
objects yield a value; reading `type` off `null` (via optional
chaining) or a primitive yields `undefined`. -/
def jsGetField (v : JVal) (k : String) : Option JVal :=
  match v with
  | .jobj m => objLookup m k
  | _ => none

/-- JS strict equality `v === s` of an optional dynamic value against a
string literal: true exactly when the value is that string
(`undefined !== s` for every string `s`). -/
def jsStrictEqStr (v : Option JVal) (s : String) : Bool :=
  match v with
  | some (.jstr x) => x == s
  | _ => false

/-- The `render` closure registered with `registerBlockMenuCommand`:
look the block up, read `_repr`, and return the three-item layout menu
only when `repr?.type === "table2"`; otherwise render nothing. -/
def render (pluginName : String) (l10n : L10NState) (st : OrcaState)
    (blockId : Nat) : Option MenuNode :=
  match st.blocks blockId with
  | none => none
  | some block =>
    let repr := (block.properties.find? (fun p => p.name == "_repr")).map (fun p => p.value)
    if jsStrictEqStr (repr.bind (fun v => jsGetField v "type")) "table2" then
      some
        { preIcon := "ti ti-layout-dashboard"
          title := t l10n "Table Layout" none none
          items :=
            [ ⟨t l10n "Multi-column" none none, pluginName ++ ".multi-col", blockId, true⟩,
              ⟨t l10n "Series" none none, pluginName ++ ".series", blockId, true⟩,
              ⟨t l10n "None" none none, pluginName ++ ".none", blockId, true⟩ ] }
    else none

/-! ## src/src/main.tsx: load -/

/-- Registration and injection calls issued during `load`. -/
inductive LoadEvent where
  | registerEditorCommand (id : String)
  | registerBlockMenuCommand (id : String)
  | injectCSSResource (url : String) (role : String)
  deriving DecidableEq, Repr

/-- `orca.commands.registerEditorCommand(id, doFn, () => \x7b\x7d, \x7b label \x7d)`
as a registry update. -/
def registerEditorCommand (st : OrcaState) (id : String) (doFn : DoFn)
    (label : String) : OrcaState :=
  { st with commands := fun k => if k = id then some ⟨doFn, label⟩ else st.commands k }

/-- `orca.blockMenuCommands.registerBlockMenuCommand(id, \x7b worksOnMultipleBlocks, render \x7d)`
as a registry update. -/
def registerBlockMenuCommand (st : OrcaState) (id : String) (w : Bool) : OrcaState :=
  { st with blockMenuCommands :=
      fun k => if k = id then some ⟨w⟩ else st.blockMenuCommands k }

/-- One `if (orca.state.commands[id] == null) \x7b registerEditorCommand(...) \x7d`
guard of `load`. -/
def regIfAbsent (st : OrcaState) (id : String) (doFn : DoFn) (label : String) :
    OrcaState × List LoadEvent :=
  if st.commands id = none then
    (registerEditorCommand st id doFn label, [.registerEditorCommand id])
  else (st, [])

/-- The result of `load`: the l10n globals it set, the host state after
its registrations, and the trace of registration/injection calls. -/
structure LoadResult where
  l10n : L10NState
  orca : OrcaState
  events : List LoadEvent

/-- `load(_name)` of main.tsx: set up l10n from `orca.state.locale` and
the built-in `zh-CN` table (the `./translations/zhCN` module is not part
of the provided sources, so the table is a parameter), register the
three editor commands and the block-menu contribution, each guarded by
an existence check, then unconditionally inject the CSS resource. -/
def load (pluginName : String) (zhCN : List (String × String)) (st0 : OrcaState) :
    LoadResult :=
  let l10n := setupL10N st0.locale [("zh-CN", zhCN)]
  let r1 := regIfAbsent st0 (pluginName ++ ".multi-col") .setMultiCol
    (t l10n "Set Multi-column" none none)
  let r2 := regIfAbsent r1.1 (pluginName ++ ".series") .setSeries
    (t l10n "Set Series" none none)
  let r3 := regIfAbsent r2.1 (pluginName ++ ".none") .clearLayout
    (t l10n "Clear Layout" none none)
  let r4 :=
    if r3.1.blockMenuCommands (pluginName ++ ".menu") = none then
      (registerBlockMenuCommand r3.1 (pluginName ++ ".menu") false,
       [LoadEvent.registerBlockMenuCommand (pluginName ++ ".menu")])
    else (r3.1, [])
  ⟨l10n, r4.1,
    r1.2 ++ r2.2 ++ r3.2 ++ r4.2 ++
      [.injectCSSResource (pluginName ++ "/dist/layouts.css") pluginName]⟩

/-! ## Spec-level readers and auxiliary lemmas -/

/-- The spec reading "the current `_attr` map of the block (or the empty
map if absent)": the object stored under the `_attr` property, the
empty map when the block or the property is missing or non-object. -/
def attrMapOf (st : OrcaState) (b : Nat) : List (String × JVal) :=
  match st.blocks b with
  | none => []
  | some blk =>
    match blk.properties.find? (fun p => p.name == "_attr") with
    | none => []
    | some p =>
      match p.value with
      | JVal.jobj m => m
      | _ => []

/-- Well-formedness of the stored attributes of a block: every property named
`_attr` (if any) stores an object, which is all the plugin ever writes
there. -/
def AttrIsObj (st : OrcaState) (b : Nat) : Bool :=
  match st.blocks b with
  | none => true
  | some blk => blk.properties.all (fun p => p.name != "_attr" || p.value.isObj)

theorem spread_getBlockAttr_eq_attrMapOf (st : OrcaState) (b : Nat)
    (h : AttrIsObj st b = true) :
    spreadFields (getBlockAttr st b) = attrMapOf st b := by
  unfold AttrIsObj at h
  cases hb : st.blocks b with
  | none => simp [getBlockAttr, attrMapOf, hb, spreadFields]
  | some blk =>
    rw [hb] at h
    cases hf : blk.properties.find? (fun p => p.name == "_attr") with
    | none => simp [getBlockAttr, attrMapOf, hb, hf, spreadFields]
    | some p =>
      have hmem := List.mem_of_find?_eq_some hf
      have hname := List.find?_some hf
      have hobj : p.value.isObj = true := by
        have hall := (List.all_eq_true.mp h) p hmem
        rw [Bool.or_eq_true] at hall
        rcases hall with hn | ho
        · rw [bne] at hn
          rw [hname] at hn
          simp at hn
        · exact ho
      cases hv : p.value with
      | jobj m => simp [getBlockAttr, attrMapOf, hb, hf, hv, JVal.truthy, spreadFields]
      | jnull => rw [hv] at hobj; simp [JVal.isObj] at hobj
      | jbool x => rw [hv] at hobj; simp [JVal.isObj] at hobj
      | jnum x => rw [hv] at hobj; simp [JVal.isObj] at hobj
      | jstr x => rw [hv] at hobj; simp [JVal.isObj] at hobj

theorem objSet_nil (k : String) (v : JVal) : objSet [] k v = [(k, v)] := by
  simp [objSet, objHas]

theorem objSet_cons_eq (p : String × JVal) (rest : List (String × JVal))
    (k : String) (v : JVal) (hp : (p.1 == k) = true) :
    objSet (p :: rest) k v =
      (k, v) :: rest.map (fun q => if q.1 == k then (k, v) else q) := by
  have hhas : objHas (p :: rest) k = true := by
    simp [objHas, List.any_cons, hp]
  rw [objSet, if_pos hhas, List.map_cons, if_pos hp]

theorem objSet_cons_ne (p : String × JVal) (rest : List (String × JVal))
    (k : String) (v : JVal) (hp : (p.1 == k) = false) :
    objSet (p :: rest) k v = p :: objSet rest k v := by
  cases hr : objHas rest k with
  | true =>
    have hhas : objHas (p :: rest) k = true := by
      simp only [objHas, List.any_cons] at hr ⊢
      simp [hp, hr]
    rw [objSet, if_pos hhas, List.map_cons, if_neg (by simp [hp]),
      objSet, if_pos hr]
  | false =>
    have hhas : objHas (p :: rest) k = false := by
      simp only [objHas, List.any_cons] at hr ⊢
      simp [hp, hr]
    rw [objSet, if_neg (by simp [hhas]), objSet, if_neg (by simp [hr]),
      List.cons_append]

theorem objLookup_map_set (rest : List (String × JVal)) (k : String) (v : JVal)
    (k2 : String) (hne : (k == k2) = false) :
    objLookup (rest.map (fun q => if q.1 == k then (k, v) else q)) k2 =
      objLookup rest k2 := by
  induction rest with
  | nil => rfl
  | cons q r ih =>
    by_cases hq : (q.1 == k) = true
    · have hqk : q.1 = k := eq_of_beq hq
      rw [List.map_cons, if_pos hq, objLookup, objLookup]
      simp only [hqk, hne]
      simpa using ih
    · rw [List.map_cons, if_neg hq, objLookup, objLookup]
      cases hq2 : (q.1 == k2) with
      | true => simp [hq2]
      | false => simpa [hq2] using ih

theorem objLookup_objSet_self (m : List (String × JVal)) (k : String) (v : JVal) :
    objLookup (objSet m k v) k = some v := by
  induction m with
  | nil => simp [objSet_nil, objLookup]
  | cons p rest ih =>
    cases hp : (p.1 == k) with
    | true =>
      rw [objSet_cons_eq p rest k v hp, objLookup]
      simp
    | false =>
      rw [objSet_cons_ne p rest k v hp, objLookup]
      simpa [hp] using ih

theorem objLookup_objSet_ne (m : List (String × JVal)) (k : String) (v : JVal)
    (k2 : String) (hne : k2 ≠ k) :
    objLookup (objSet m k v) k2 = objLookup m k2 := by
  have hbne : (k == k2) = false := by
    cases hkk : k == k2 with
    | false => rfl
    | true => exact absurd (eq_of_beq hkk).symm hne
  induction m with
  | nil =>
    rw [objSet_nil, objLookup]
    simp [hbne, objLookup]
  | cons p rest ih =>
    cases hp : (p.1 == k) with
    | true =>
      have hqk : p.1 = k := eq_of_beq hp
      rw [objSet_cons_eq p rest k v hp, objLookup, objLookup]
      simp only [hqk, hbne]
      simpa using objLookup_map_set rest k v k2 hbne
    | false =>
      rw [objSet_cons_ne p rest k v hp, objLookup, objLookup]
      cases hq2 : (p.1 == k2) with
      | true => simp [hq2]
      | false => simpa [hq2] using ih

/-! ## Concrete states used as witnesses -/

/-- A block whose `_attr` is exactly `\x7b multi-col: 1 \x7d`. -/
def blockOnlyMC : Block :=
  ⟨[⟨"_attr", JVal.jobj [("multi-col", JVal.jnum 1)], 0⟩]⟩

/-- A block whose `_attr` is `\x7b multi-col: 1, customKey: "x" \x7d`. -/
def blockMixed : Block :=
  ⟨[⟨"_attr", JVal.jobj [("multi-col", JVal.jnum 1), ("customKey", JVal.jstr "x")], 0⟩]⟩

/-- A block whose `_attr` is exactly `\x7b serie: 1 \x7d`. -/
def blockSerie : Block :=
  ⟨[⟨"_attr", JVal.jobj [("serie", JVal.jnum 1)], 0⟩]⟩

/-- A table block: `_repr.type = "table2"`. -/
def blockTable : Block :=
  ⟨[⟨"_repr", JVal.jobj [("type", JVal.jstr "table2")], 0⟩]⟩

/-- A non-table block: `_repr.type = "text"`. -/
def blockText : Block :=
  ⟨[⟨"_repr", JVal.jobj [("type", JVal.jstr "text")], 0⟩]⟩

/-- A block with no properties at all (in particular no `_attr`). -/
def blockBare : Block := ⟨[]⟩

/-- A host state whose only block is `blk`, stored under id 1, with
empty command registries. -/
def stWith (blk : Block) : OrcaState :=
  ⟨"en", fun b => if b = 1 then some blk else none, fun _ => none, fun _ => none⟩

/-- A host state with no blocks and empty registries. -/
def stEmpty : OrcaState :=
  ⟨"en", fun _ => none, fun _ => none, fun _ => none⟩

/-! ## Claim C1 -/

/-- C1, counterexample: the claim fails at two points.  First, when no
table or no entry exists for the locale, `t` does not return the key
unchanged "for every args map including a non-empty one": the code uses
the key as the template and still applies substitution to it, so with no
table for locale `fr`, key `$\x7ba\x7d` and args `\x7b a: "b" \x7d`, `t`
returns `"b"`, not the key.  Second, even with a table entry, an
occurrence of the placeholder is not replaced by `args[name]` verbatim:
the replacement string goes through JS GetSubstitution, so the template
`"Hi $\x7bn\x7d"` with args `\x7b n: "$$" \x7d` gives `"Hi $"`, not
`"Hi $$"`. -/
theorem t_fallback_counterexample :
    (lookupEntry ⟨"en", []⟩ "fr" "$\x7ba\x7d" = none ∧
      t ⟨"en", []⟩ "$\x7ba\x7d" (some [("a", "b")]) (some "fr") = "b" ∧
      "b" ≠ "$\x7ba\x7d") ∧
    (lookupEntry ⟨"en", [("en", [("hi", "Hi $\x7bn\x7d")])]⟩ "en" "hi" =
        some "Hi $\x7bn\x7d" ∧
      t ⟨"en", [("en", [("hi", "Hi $\x7bn\x7d")])]⟩ "hi"
        (some [("n", "$$")]) (some "en") = "Hi $" ∧
      "Hi $" ≠ "Hi $$") := by
  exact ⟨⟨rfl, by decide, by decide⟩, ⟨rfl, by decide, by decide⟩⟩

/-- C1 (amended): for every locale `L` with a translation-table entry
for key `K`, `t(K, args, L)` returns the template of that entry with the
placeholder substitution of `args` applied, entry by entry, where each
occurrence of the placeholder is replaced by the GetSubstitution
processing of the value (dollar-dollar, dollar-ampersand,
dollar-backquote and dollar-single-quote are special; a value without
such sequences is inserted verbatim); if no table or no entry exists for
`L`, `t` uses the key `K` itself as the template, applying the same
substitution to it (so `K` is returned unchanged exactly when `args` is
absent or substitutes nothing in `K`).  `t` is total: it never throws
and never returns null. -/
theorem t_resolution_spec (st : L10NState) (key : String)
    (args : List (String × String)) (loc : String) :
    (∀ tmpl, lookupEntry st loc key = some tmpl →
      t st key (some args) (some loc) = substArgs args tmpl ∧
      t st key none (some loc) = tmpl) ∧
    (lookupEntry st loc key = none →
      t st key (some args) (some loc) = substArgs args key ∧
      t st key none (some loc) = key) := by
  constructor
  · intro tmpl h
    constructor <;> simp [t, h]
  · intro h
    constructor <;> simp [t, h]

/-- Witness for C1 at concrete inputs: a translated template is
substituted, and the fallback applies substitution to the key. -/
theorem t_resolution_spec_witness :
    t ⟨"en", [("en", [("greet", "Hello $\x7bname\x7d")])]⟩ "greet"
      (some [("name", "world")]) (some "en") = "Hello world" ∧
    t ⟨"en", []⟩ "$\x7ba\x7d" (some [("a", "b")]) (some "fr") = "b" := by
  constructor
  · have h := (t_resolution_spec ⟨"en", [("en", [("greet", "Hello $\x7bname\x7d")])]⟩
      "greet" [("name", "world")] "en").1 "Hello $\x7bname\x7d" (by decide)
    rw [h.1]
    decide
  · have h := (t_resolution_spec ⟨"en", []⟩ "$\x7ba\x7d" [("a", "b")] "fr").2 (by decide)
    rw [h.1]
    decide

/-! ## Claim C8 -/

/-- C8, counterexample: the substitution does not replace every
occurrence of the placeholder "with the corresponding value": a string
replacement value passes through JS GetSubstitution, so the template
`"Hello $\x7bname\x7d"` with args `\x7b name: "$$" \x7d` yields
`"Hello $"`, not `"Hello $$"`. -/
theorem t_dollar_counterexample :
    t ⟨"en", [("en", [("greet", "Hello $\x7bname\x7d")])]⟩ "greet"
      (some [("name", "$$")]) none = "Hello $" ∧
    "Hello $" ≠ "Hello $$" := by
  exact ⟨by decide, by decide⟩

/-- C8 (amended): placeholder substitution in `t` is literal and
non-regex in the pattern, applied entry by entry in mapping order (the
fold below); every occurrence of `$\x7bargName\x7d` is replaced by the
GetSubstitution processing of the value (dollar-dollar yields one
dollar, dollar-ampersand the matched placeholder, dollar-backquote the
preceding text, dollar-single-quote the following text, any other
dollar sequence stays literal, and a value without such sequences is
inserted verbatim), and a substituted value is not re-substituted by
the same entry: `"Hello $\x7bname\x7d"` with
`\x7b name: "$\x7bother\x7d" \x7d` yields `"Hello $\x7bother\x7d"`. -/
theorem t_substitution_literal (st : L10NState) (key : String)
    (args : List (String × String)) (loc : Option String) :
    (∀ tmpl, lookupEntry st (loc.getD st.locale) key = some tmpl →
      t st key (some args) loc =
        args.foldl (fun str nv => jsReplaceAll str ("$\x7b" ++ nv.1 ++ "\x7d") nv.2) tmpl) ∧
    t ⟨"en", [("en", [("greet", "Hello $\x7bname\x7d")])]⟩ "greet"
      (some [("name", "$\x7bother\x7d")]) none = "Hello $\x7bother\x7d" ∧
    jsReplaceAll "$\x7bx\x7d and $\x7bx\x7d" "$\x7bx\x7d" "7" = "7 and 7" ∧
    jsReplaceAll "Hello $\x7bname\x7d" "$\x7bname\x7d" "$$" = "Hello $" ∧
    jsReplaceAll "Hello $\x7bname\x7d" "$\x7bname\x7d" "$&" = "Hello $\x7bname\x7d" ∧
    jsReplaceAll "Hello $\x7bname\x7d" "$\x7bname\x7d" "a$1b" = "Hello a$1b" := by
  refine ⟨?_, by decide, by decide, by decide, by decide, by decide⟩
  intro tmpl h
  simp [t, h, substArgs]

/-- Witness for C8: the same fold applied through the theorem at a
concrete table, template and argument map. -/
theorem t_substitution_literal_witness :
    t ⟨"en", [("en", [("k", "$\x7ba\x7d-$\x7ba\x7d")])]⟩ "k"
      (some [("a", "1"), ("b", "2")]) none = "1-1" := by
  have h := (t_substitution_literal ⟨"en", [("en", [("k", "$\x7ba\x7d-$\x7ba\x7d")])]⟩
    "k" [("a", "1"), ("b", "2")] none).1 "$\x7ba\x7d-$\x7ba\x7d" (by decide)
  rw [h]
  decide

/-! ## Claim C2 -/

/-- C2: `clearLayout` reads the current `_attr` map (empty if absent),
removes `multi-col` and `serie`; if the result is empty it issues one
`core.editor.deleteProperties` for `_attr` (it never persists an empty
map), otherwise one `core.editor.setProperties` with exactly the
reduced map, returning null either way. -/
theorem clearLayout_spec (st : OrcaState) (b : Nat) (h : AttrIsObj st b = true)
    (m : List (String × JVal))
    (hm : m = objDelete (objDelete (attrMapOf st b) "multi-col") "serie") :
    (m = [] → clearLayout st b =
      ([.invokeNames "core.editor.deleteProperties" [b] ["_attr"]], .jnull)) ∧
    (m ≠ [] → clearLayout st b =
      ([.invoke "core.editor.setProperties" [b] [⟨"_attr", .jobj m, 0⟩]], .jnull)) ∧
    (∀ ids ps, HostCmd.invoke "core.editor.setProperties" ids ps ∈ (clearLayout st b).1 →
      ∀ p ∈ ps, p.value ≠ JVal.jobj []) := by
  have hb := spread_getBlockAttr_eq_attrMapOf st b h
  have hcl : clearLayout st b =
      if (objKeys m).length = 0 then
        ([.invokeNames "core.editor.deleteProperties" [b] ["_attr"]], .jnull)
      else ([.invoke "core.editor.setProperties" [b] [⟨"_attr", .jobj m, 0⟩]], .jnull) := by
    rw [clearLayout, hb, ← hm]
  have hlen : (objKeys m).length = m.length := by
    simp [objKeys]
  refine ⟨?_, ?_, ?_⟩
  · intro h0
    rw [hcl, if_pos (by rw [h0]; rfl)]
  · intro hne
    rw [hcl, if_neg ?_]
    rw [hlen]
    intro hz
    exact hne (List.length_eq_zero.mp hz)
  · intro ids ps hmem p hp
    rw [hcl] at hmem
    by_cases h0 : (objKeys m).length = 0
    · rw [if_pos h0] at hmem
      simp at hmem
    · rw [if_neg h0] at hmem
      have heq := List.mem_singleton.mp hmem
      injection heq with h1 h2 h3
      subst h3
      have hpe := List.mem_singleton.mp hp
      subst hpe
      intro hcontra
      have hvm : JVal.jobj m = JVal.jobj [] := hcontra
      injection hvm with hm0
      rw [hlen] at h0
      exact h0 (by rw [hm0]; rfl)

/-- Witness for C2 at the two concrete examples from the spec:
`_attr = \x7b multi-col: 1 \x7d` is deleted entirely, and
`_attr = \x7b multi-col: 1, customKey: "x" \x7d` is persisted as
`\x7b customKey: "x" \x7d`. -/
theorem clearLayout_spec_witness :
    clearLayout (stWith blockOnlyMC) 1 =
      ([.invokeNames "core.editor.deleteProperties" [1] ["_attr"]], .jnull) ∧
    clearLayout (stWith blockMixed) 1 =
      ([.invoke "core.editor.setProperties" [1]
        [⟨"_attr", .jobj [("customKey", .jstr "x")], 0⟩]], .jnull) := by
  constructor
  · exact (clearLayout_spec (stWith blockOnlyMC) 1 (by rfl) [] (by rfl)).1 rfl
  · exact (clearLayout_spec (stWith blockMixed) 1 (by rfl)
      [("customKey", JVal.jstr "x")] (by rfl)).2.1 (by simp)

/-! ## Claim C3 -/

/-- C3: `setMultiCol` persists, via a single `core.editor.setProperties`
invocation, the prior `_attr` map with `multi-col` set to 1 and every
other key unchanged (in particular a pre-existing `serie: 1` is kept:
instantiate the third conjunct at `k = "serie"`), and returns null;
`setSeries` is the symmetric operation on `serie`. -/
theorem setMultiCol_setSeries_spec (st : OrcaState) (b : Nat)
    (h : AttrIsObj st b = true) (prior : List (String × JVal))
    (hp : prior = attrMapOf st b) :
    (setMultiCol st b =
      ([.invoke "core.editor.setProperties" [b]
        [⟨"_attr", .jobj (objSet prior "multi-col" (.jnum 1)), 0⟩]], .jnull)) ∧
    objLookup (objSet prior "multi-col" (.jnum 1)) "multi-col" = some (.jnum 1) ∧
    (∀ k, k ≠ "multi-col" →
      objLookup (objSet prior "multi-col" (.jnum 1)) k = objLookup prior k) ∧
    (setSeries st b =
      ([.invoke "core.editor.setProperties" [b]
        [⟨"_attr", .jobj (objSet prior "serie" (.jnum 1)), 0⟩]], .jnull)) ∧
    objLookup (objSet prior "serie" (.jnum 1)) "serie" = some (.jnum 1) ∧
    (∀ k, k ≠ "serie" →
      objLookup (objSet prior "serie" (.jnum 1)) k = objLookup prior k) := by
  have hb := spread_getBlockAttr_eq_attrMapOf st b h
  subst hp
  refine ⟨?_, objLookup_objSet_self _ _ _,
    fun k hk => objLookup_objSet_ne _ _ _ k hk, ?_,
    objLookup_objSet_self _ _ _, fun k hk => objLookup_objSet_ne _ _ _ k hk⟩
  · rw [setMultiCol, hb]
  · rw [setSeries, hb]

/-- Witness for C3: on a block whose `_attr` is `\x7b serie: 1 \x7d`,
`setMultiCol` persists `\x7b serie: 1, multi-col: 1 \x7d` (the
pre-existing `serie` entry survives). -/
theorem setMultiCol_setSeries_spec_witness :
    setMultiCol (stWith blockSerie) 1 =
      ([.invoke "core.editor.setProperties" [1]
        [⟨"_attr", .jobj [("serie", .jnum 1), ("multi-col", .jnum 1)], 0⟩]], .jnull) ∧
    objLookup (objSet [("serie", JVal.jnum 1)] "multi-col" (.jnum 1)) "serie" =
      some (.jnum 1) := by
  have h := setMultiCol_setSeries_spec (stWith blockSerie) 1 (by rfl)
    [("serie", JVal.jnum 1)] (by rfl)
  constructor
  · rw [h.1]
    rfl
  · rw [h.2.2.1 "serie" (by decide)]
    rfl

/-! ## Claim C4 -/

/-- Spec-level reading of `_repr.type` of a block: the `type` field of
the value of the `_repr` property, when that exists and is an
object. -/
def blockReprType (blk : Block) : Option JVal :=
  ((blk.properties.find? (fun p => p.name == "_repr")).map (fun p => p.value)).bind
    (fun v => jsGetField v "type")

/-- C4: the block-menu `render` returns null whenever the block does not
exist or its `_repr.type` is not `"table2"`; when it is `"table2"` it
returns a menu of exactly three items invoking, in order, the
registered multi-column, series and none commands on that block, each
closing the menu. -/
theorem render_spec (pn : String) (l10n : L10NState) (st : OrcaState) (b : Nat) :
    (st.blocks b = none → render pn l10n st b = none) ∧
    (∀ blk, st.blocks b = some blk →
      (jsStrictEqStr (blockReprType blk) "table2" = false →
        render pn l10n st b = none) ∧
      (jsStrictEqStr (blockReprType blk) "table2" = true →
        ∃ menu, render pn l10n st b = some menu ∧
          menu.items.length = 3 ∧
          menu.items.map (fun it => it.invokesCommand) =
            [pn ++ ".multi-col", pn ++ ".series", pn ++ ".none"] ∧
          ∀ it ∈ menu.items, it.closesMenu = true ∧ it.onBlock = b)) := by
  constructor
  · intro h
    simp [render, h]
  · intro blk hblk
    constructor
    · intro hf
      simp only [render, hblk]
      rw [show ((blk.properties.find? (fun p => p.name == "_repr")).map
        (fun p => p.value)).bind (fun v => jsGetField v "type") = blockReprType blk from rfl]
      simp [hf]
    · intro ht
      simp only [render, hblk]
      rw [show ((blk.properties.find? (fun p => p.name == "_repr")).map
        (fun p => p.value)).bind (fun v => jsGetField v "type") = blockReprType blk from rfl]
      simp only [ht, if_true]
      refine ⟨_, rfl, rfl, rfl, ?_⟩
      intro it hit
      simp at hit
      rcases hit with h1 | h1 | h1 <;> rw [h1] <;> exact ⟨rfl, rfl⟩

/-- Witness for C4: a `table2` block gets the three-item menu, a text
block and a missing block get nothing. -/
theorem render_spec_witness :
    render "plug" ⟨"en", []⟩ (stWith blockText) 1 = none ∧
    render "plug" ⟨"en", []⟩ stEmpty 5 = none ∧
    (∃ menu, render "plug" ⟨"en", []⟩ (stWith blockTable) 1 = some menu ∧
      menu.items.map (fun it => it.invokesCommand) =
        ["plug" ++ ".multi-col", "plug" ++ ".series", "plug" ++ ".none"]) := by
  refine ⟨?_, ?_, ?_⟩
  · exact ((render_spec "plug" ⟨"en", []⟩ (stWith blockText) 1).2 blockText rfl).1 rfl
  · exact (render_spec "plug" ⟨"en", []⟩ stEmpty 5).1 rfl
  · obtain ⟨menu, hm, -, hmap, -⟩ :=
      ((render_spec "plug" ⟨"en", []⟩ (stWith blockTable) 1).2 blockTable rfl).2 rfl
    exact ⟨menu, hm, hmap⟩

/-! ## Claim C6 -/

/-- C6: each toggler issues exactly one host command invocation; the
operations take the host state read-only and produce nothing but this
single-invocation trace and their null return value. -/
theorem togglers_single_invocation (st : OrcaState) (b : Nat) :
    (setMultiCol st b).1.length = 1 ∧
    (setSeries st b).1.length = 1 ∧
    (clearLayout st b).1.length = 1 := by
  refine ⟨rfl, rfl, ?_⟩
  simp only [clearLayout]
  split <;> rfl

/-! ## Claim C7 -/

/-- C7: when the block id resolves to no block, or the block has no
`_attr` property, the attribute read used by all three togglers yields
the empty map, with no error signalled (the function is total). -/
theorem getBlockAttr_default (st : OrcaState) (b : Nat) :
    (st.blocks b = none → getBlockAttr st b = .jobj []) ∧
    (∀ blk, st.blocks b = some blk →
      blk.properties.find? (fun p => p.name == "_attr") = none →
      getBlockAttr st b = .jobj []) := by
  constructor
  · intro h
    simp [getBlockAttr, h]
  · intro blk h hf
    simp [getBlockAttr, h, hf]

/-- Witness for C7: a missing block and a block without `_attr`. -/
theorem getBlockAttr_default_witness :
    getBlockAttr stEmpty 7 = .jobj [] ∧
    getBlockAttr (stWith blockBare) 1 = .jobj [] :=
  ⟨(getBlockAttr_default stEmpty 7).1 rfl,
   (getBlockAttr_default (stWith blockBare) 1).2 blockBare rfl rfl⟩

/-! ## Claim C9 -/

/-- C9: `clearLayout` on a missing block, or on a block without an
`_attr` property, still issues exactly one `core.editor.deleteProperties`
invocation for `_attr` (not a no-op, not an error). -/
theorem clearLayout_missing_attr (st : OrcaState) (b : Nat) :
    (st.blocks b = none → clearLayout st b =
      ([.invokeNames "core.editor.deleteProperties" [b] ["_attr"]], .jnull)) ∧
    (∀ blk, st.blocks b = some blk →
      blk.properties.find? (fun p => p.name == "_attr") = none →
      clearLayout st b =
        ([.invokeNames "core.editor.deleteProperties" [b] ["_attr"]], .jnull)) := by
  constructor
  · intro h
    simp [clearLayout, getBlockAttr, h, spreadFields, objDelete, objKeys]
  · intro blk h hf
    simp [clearLayout, getBlockAttr, h, hf, spreadFields, objDelete, objKeys]

/-- Witness for C9: the delete is requested both for a missing block and
for a block that never had `_attr`. -/
theorem clearLayout_missing_attr_witness :
    clearLayout stEmpty 7 =
      ([.invokeNames "core.editor.deleteProperties" [7] ["_attr"]], .jnull) ∧
    clearLayout (stWith blockBare) 1 =
      ([.invokeNames "core.editor.deleteProperties" [1] ["_attr"]], .jnull) :=
  ⟨(clearLayout_missing_attr stEmpty 7).1 rfl,
   (clearLayout_missing_attr (stWith blockBare) 1).2 blockBare rfl rfl⟩

/-! ## Lemmas about load -/

theorem regIfAbsent_commands_none_iff (s : OrcaState) (id : String) (d : DoFn)
    (l : String) (k : String) :
    ((regIfAbsent s id d l).1.commands k = none) ↔
      (s.commands k = none ∧ k ≠ id) := by
  unfold regIfAbsent registerEditorCommand
  by_cases hc : s.commands id = none
  · rw [if_pos hc]
    by_cases hk : k = id
    · subst hk
      simp [hc]
    · simp [hk]
  · rw [if_neg hc]
    by_cases hk : k = id
    · subst hk
      simp [hc]
    · simp [hk]

theorem regIfAbsent_blockMenuCommands (s : OrcaState) (id : String) (d : DoFn)
    (l : String) :
    (regIfAbsent s id d l).1.blockMenuCommands = s.blockMenuCommands := by
  unfold regIfAbsent registerEditorCommand
  by_cases hc : s.commands id = none
  · rw [if_pos hc]
  · rw [if_neg hc]

theorem registerBlockMenuCommand_commands (s : OrcaState) (i : String) (w : Bool) :
    (registerBlockMenuCommand s i w).commands = s.commands := rfl

theorem regIfAbsent_edit_event (s : OrcaState) (id : String) (d : DoFn)
    (l : String) (id2 : String)
    (h : LoadEvent.registerEditorCommand id2 ∈ (regIfAbsent s id d l).2) :
    id2 = id ∧ s.commands id = none := by
  unfold regIfAbsent at h
  by_cases hc : s.commands id = none
  · rw [if_pos hc] at h
    simp at h
    exact ⟨h, hc⟩
  · rw [if_neg hc] at h
    simp at h

theorem regIfAbsent_no_menu_event (s : OrcaState) (id : String) (d : DoFn)
    (l : String) (id2 : String) :
    LoadEvent.registerBlockMenuCommand id2 ∉ (regIfAbsent s id d l).2 := by
  unfold regIfAbsent
  by_cases hc : s.commands id = none
  · rw [if_pos hc]
    simp
  · rw [if_neg hc]
    simp

theorem load_commands_none_iff (pn : String) (zh : List (String × String))
    (st : OrcaState) (k : String) :
    ((load pn zh st).orca.commands k = none) ↔
      (st.commands k = none ∧ k ≠ pn ++ ".multi-col" ∧
        k ≠ pn ++ ".series" ∧ k ≠ pn ++ ".none") := by
  simp only [load]
  split
  · rw [registerBlockMenuCommand_commands, regIfAbsent_commands_none_iff,
      regIfAbsent_commands_none_iff, regIfAbsent_commands_none_iff]
    tauto
  · rw [regIfAbsent_commands_none_iff, regIfAbsent_commands_none_iff,
      regIfAbsent_commands_none_iff]
    tauto

theorem load_menu_none_iff (pn : String) (zh : List (String × String))
    (st : OrcaState) (k : String) :
    ((load pn zh st).orca.blockMenuCommands k = none) ↔
      (st.blockMenuCommands k = none ∧ k ≠ pn ++ ".menu") := by
  simp only [load]
  split
  next cm =>
    rw [regIfAbsent_blockMenuCommands, regIfAbsent_blockMenuCommands,
      regIfAbsent_blockMenuCommands] at cm
    simp only [registerBlockMenuCommand]
    by_cases hk : k = pn ++ ".menu"
    · subst hk
      simp [cm]
    · simp only [if_neg hk]
      rw [regIfAbsent_blockMenuCommands, regIfAbsent_blockMenuCommands,
        regIfAbsent_blockMenuCommands]
      simp [hk]
  next cm =>
    rw [regIfAbsent_blockMenuCommands, regIfAbsent_blockMenuCommands,
      regIfAbsent_blockMenuCommands] at cm
    rw [regIfAbsent_blockMenuCommands, regIfAbsent_blockMenuCommands,
      regIfAbsent_blockMenuCommands]
    by_cases hk : k = pn ++ ".menu"
    · subst hk
      simp [cm]
    · simp [hk]

theorem load_skip_all (pn : String) (zh : List (String × String)) (st : OrcaState)
    (h1 : st.commands (pn ++ ".multi-col") ≠ none)
    (h2 : st.commands (pn ++ ".series") ≠ none)
    (h3 : st.commands (pn ++ ".none") ≠ none)
    (h4 : st.blockMenuCommands (pn ++ ".menu") ≠ none) :
    (load pn zh st).orca = st ∧
    (load pn zh st).events =
      [.injectCSSResource (pn ++ "/dist/layouts.css") pn] := by
  have e1 := eq_false h1
  have e2 := eq_false h2
  have e3 := eq_false h3
  have e4 := eq_false h4
  constructor <;> simp [load, regIfAbsent, e1, e2, e3, e4]

/-! ## Claim C5 -/

/-- C5: calling `load` twice without an intervening `unload` does not
throw (the function is total) and registers nothing the second time:
the trace of the second call is just the CSS injection, its state equals the
state after the first call, and in any call a command or menu
registration is issued only when no entry with that identifier exists
in the corresponding host registry. -/
theorem load_idempotent (pn : String) (zh : List (String × String)) (st : OrcaState) :
    ((load pn zh (load pn zh st).orca).orca = (load pn zh st).orca) ∧
    ((load pn zh (load pn zh st).orca).events =
      [.injectCSSResource (pn ++ "/dist/layouts.css") pn]) ∧
    (∀ id, LoadEvent.registerEditorCommand id ∈ (load pn zh st).events →
      st.commands id = none) ∧
    (∀ id, LoadEvent.registerBlockMenuCommand id ∈ (load pn zh st).events →
      st.blockMenuCommands id = none) := by
  have h1 : (load pn zh st).orca.commands (pn ++ ".multi-col") ≠ none := by
    intro hn
    exact ((load_commands_none_iff pn zh st _).mp hn).2.1 rfl
  have h2 : (load pn zh st).orca.commands (pn ++ ".series") ≠ none := by
    intro hn
    exact ((load_commands_none_iff pn zh st _).mp hn).2.2.1 rfl
  have h3 : (load pn zh st).orca.commands (pn ++ ".none") ≠ none := by
    intro hn
    exact ((load_commands_none_iff pn zh st _).mp hn).2.2.2 rfl
  have h4 : (load pn zh st).orca.blockMenuCommands (pn ++ ".menu") ≠ none := by
    intro hn
    exact ((load_menu_none_iff pn zh st _).mp hn).2 rfl
  obtain ⟨hskip, hev⟩ := load_skip_all pn zh (load pn zh st).orca h1 h2 h3 h4
  refine ⟨hskip, hev, ?_, ?_⟩
  · intro id hmem
    simp only [load, List.mem_append] at hmem
    rcases hmem with (((hm1 | hm2) | hm3) | hm4) | hm5
    · obtain ⟨hid, hnone⟩ := regIfAbsent_edit_event _ _ _ _ _ hm1
      subst hid
      exact hnone
    · obtain ⟨hid, hnone⟩ := regIfAbsent_edit_event _ _ _ _ _ hm2
      subst hid
      exact ((regIfAbsent_commands_none_iff _ _ _ _ _).mp hnone).1
    · obtain ⟨hid, hnone⟩ := regIfAbsent_edit_event _ _ _ _ _ hm3
      subst hid
      exact ((regIfAbsent_commands_none_iff _ _ _ _ _).mp
        ((regIfAbsent_commands_none_iff _ _ _ _ _).mp hnone).1).1
    · revert hm4
      split
      · simp
      · simp
    · simp at hm5
  · intro id hmem
    simp only [load, List.mem_append] at hmem
    rcases hmem with (((hm1 | hm2) | hm3) | hm4) | hm5
    · exact absurd hm1 (regIfAbsent_no_menu_event _ _ _ _ _)
    · exact absurd hm2 (regIfAbsent_no_menu_event _ _ _ _ _)
    · exact absurd hm3 (regIfAbsent_no_menu_event _ _ _ _ _)
    · revert hm4
      split
      next cm =>
        rw [regIfAbsent_blockMenuCommands, regIfAbsent_blockMenuCommands,
          regIfAbsent_blockMenuCommands] at cm
        intro hm4
        simp at hm4
        subst hm4
        exact cm
      · simp
    · simp at hm5

/-- Witness for C5: a double load from an empty host state, and a
registration event implying prior absence, at concrete inputs. -/
theorem load_idempotent_witness :
    (load "plug" [] (load "plug" [] stEmpty).orca).events =
      [.injectCSSResource ("plug" ++ "/dist/layouts.css") "plug"] ∧
    stEmpty.commands ("plug" ++ ".multi-col") = none :=
  ⟨(load_idempotent "plug" [] stEmpty).2.1,
   (load_idempotent "plug" [] stEmpty).2.2.1 ("plug" ++ ".multi-col") (by decide)⟩

/-! ## Claim C10 -/

/-- Whether a load event is the CSS injection. -/
def isInjectEvent : LoadEvent → Bool
  | .injectCSSResource _ _ => true
  | _ => false

theorem regIfAbsent_no_inject (s : OrcaState) (id : String) (d : DoFn) (l : String) :
    (regIfAbsent s id d l).2.filter isInjectEvent = [] := by
  unfold regIfAbsent
  by_cases hc : s.commands id = none
  · rw [if_pos hc]
    rfl
  · rw [if_neg hc]
    rfl

/-- C10: every call to `load` performs the CSS injection exactly once,
unconditionally (its trace contains exactly one injection event, with
the plugin-scoped URL and role), so two loads without an unload inject
twice. -/
theorem load_css_injection (pn : String) (zh : List (String × String))
    (st : OrcaState) :
    ((load pn zh st).events.filter isInjectEvent) =
      [.injectCSSResource (pn ++ "/dist/layouts.css") pn] ∧
    (((load pn zh st).events ++ (load pn zh (load pn zh st).orca).events).filter
        isInjectEvent).length = 2 := by
  have key : ∀ s : OrcaState, ((load pn zh s).events.filter isInjectEvent) =
      [.injectCSSResource (pn ++ "/dist/layouts.css") pn] := by
    intro s
    simp only [load, List.filter_append]
    rw [regIfAbsent_no_inject, regIfAbsent_no_inject, regIfAbsent_no_inject]
    split <;> simp [isInjectEvent]
  refine ⟨key st, ?_⟩
  rw [List.filter_append, key st, key ((load pn zh st).orca)]
  rfl

end TableLayout
